import Mathlib

/-!
Verification of the Vinted reselling dashboard backend
(`database.py`, `integrations/vinted/adapter.py`,
`integrations/vinted/normalizer.py`).

The Python code is shallowly embedded: pure string helpers become Lean
functions on `String` / `List Char` (ASCII model of `str.upper`,
`str.lower`, `str.strip`); the remote Supabase store becomes an explicit
state record threaded through the operations; the external network fetch
of `sync_query` is an input of type `Except String (List VintedItem)`;
store failures are driven by an explicit `StoreOracle`; every store /
network call a run performs is recorded in an `Effect` trace.
-/

/-! ## Python string primitives (ASCII model) -/

/-- ASCII model of Python whitespace for `str.strip`. -/
def isPySpace (c : Char) : Bool :=
  c = ' ' || c = '\t' || c = '\n' || c = '\r' || c = '\x0b' || c = '\x0c'

/-- `str.strip()`: drop leading and trailing whitespace. -/
def pyStripChars (l : List Char) : List Char :=
  ((l.dropWhile isPySpace).reverse.dropWhile isPySpace).reverse

/-- `s.strip()` on a `String`. -/
def pyStrip (s : String) : String := ⟨pyStripChars s.data⟩

/-- `str.lower()` (ASCII model). -/
def pyLower (s : String) : String := ⟨s.data.map Char.toLower⟩

/-- `str.upper()` (ASCII model). -/
def pyUpper (s : String) : String := ⟨s.data.map Char.toUpper⟩

/-- `s[:n]` on a Python string: the first `n` characters. -/
def pyTake (n : Nat) (s : String) : String := ⟨s.data.take n⟩

/-- `s.replace(" ", "")`: remove every space character. -/
def pyRemoveSpaces (s : String) : String := ⟨s.data.filter (fun c => c ≠ ' ')⟩

/-- Whether `n` is a prefix of `h` (used for the Python `in` operator). -/
def charsLeadSegOf : List Char → List Char → Bool
  | [], _ => true
  | _ :: _, [] => false
  | a :: as, b :: bs => a == b && charsLeadSegOf as bs

/-- Whether `n` occurs as a contiguous run inside `h`. -/
def charsOccursIn (n : List Char) : List Char → Bool
  | [] => charsLeadSegOf n []
  | b :: bs => charsLeadSegOf n (b :: bs) || charsOccursIn n bs

/-- Python `needle in hay` on strings: substring containment. -/
def pyIn (needle hay : String) : Bool := charsOccursIn needle.data hay.data

/-- Python `s.split('|||')`: split on the (non-overlapping, leftmost-first)
triple-pipe separator.  `[] :: _` marks a separator hit consuming three
pipes at once. -/
def splitTriplePipe : List Char → List (List Char)
  | '|' :: '|' :: '|' :: rest => [] :: splitTriplePipe rest
  | c :: rest =>
    match splitTriplePipe rest with
    | [] => [[c]]
    | seg :: segs => (c :: seg) :: segs
  | [] => [[]]

/-! ## Normalizer (`integrations/vinted/normalizer.py`) -/

/-- One listing returned by the external marketplace library's search
(fields of the pyVintedVN `Item` object that the repository reads).
`brandTitle`/`sizeTitle`/`photo` are `Option` because Python code
truth-tests them; `createdAtIso` stands for `created_at_ts.isoformat()`
(`none` when the attribute is missing). -/
structure VintedItem where
  id : Nat
  title : String
  price : ℚ
  brandTitle : Option String
  sizeTitle : Option String
  createdAtIso : Option String
  url : String
  photo : Option String
deriving Repr, DecidableEq

/-- Python truthiness of an optional string: `None` and `""` are falsy. -/
def falsyOptStr : Option String → Bool
  | none => true
  | some s => s = ""

namespace VintedNormalizer

/-- `VintedNormalizer.generate_sku`.  Python:
`prefix = "VINT"; if brand: prefix = f"VINT-{brand[:3].upper().replace(' ', '')}"`;
`return f"{prefix}-{vinted_item_id}"`.  Note the brand is truth-tested, so
`""` behaves like `None`. -/
def generate_sku (vinted_item_id : String) (brand : Option String) : String :=
  let head :=
    if falsyOptStr brand then "VINT"
    else "VINT-" ++ pyRemoveSpaces (pyUpper (pyTake 3 (brand.getD "")))
  head ++ "-" ++ vinted_item_id

/-- Half-to-even rounding of a rational to an integer (model of Python
`round` on the values the normalizer produces; float behaviour is out of
scope, no claim depends on it). -/
def roundHalfEven (x : ℚ) : ℤ :=
  let f := ⌊x⌋
  let r := x - f
  if r < 1/2 then f
  else if 1/2 < r then f + 1
  else if f % 2 = 0 then f else f + 1

/-- Python `round(x, 2)` on the rational model. -/
def pyRound2 (x : ℚ) : ℚ := (roundHalfEven (x * 100) : ℚ) / 100

/-- The row shape `normalize_item` builds for `database.create_item`
(the `item_data` dict). -/
structure NormalizedItem where
  sku : String
  item_name : String
  category : Option String
  size : Option String
  condition : String
  brand : String
  platforms : List String
  listing_status : String
  purchase_price : Option ℚ
  fees_estimate : ℚ
  shipping_paid_by : String
  shipping_cost : ℚ
  sale_price : ℚ
  date_purchased : Option String
  date_listed : Option String
  date_sold : Option String
  location : Option String
  notes : String
  photos : List String
  vinted_item_id : String
  vinted_query_id : Option Nat
deriving Repr, DecidableEq

/-- `VintedNormalizer.normalize_item`.  The Python body is wrapped in
`try/except → None`; with typed fields no exception can occur, so the
model always returns `some` — the caller still pattern-matches on the
`Option` exactly as the adapter does. -/
def normalize_item (it : VintedItem) (query_id : Option Nat) : Option NormalizedItem :=
  some
    { sku := generate_sku (toString it.id) it.brandTitle
      item_name := it.title
      category := none
      size := if falsyOptStr it.sizeTitle then none else it.sizeTitle
      condition := "Good"
      brand := if falsyOptStr it.brandTitle then "Unknown" else it.brandTitle.getD "Unknown"
      platforms := ["Vinted"]
      listing_status := "Draft"
      purchase_price := none
      fees_estimate := pyRound2 (it.price * (10 / 100))
      shipping_paid_by := "Buyer"
      shipping_cost := 0
      sale_price := it.price
      date_purchased := none
      date_listed := it.createdAtIso
      date_sold := none
      location := none
      notes := "Imported from Vinted. Original URL: " ++ it.url
      photos := if falsyOptStr it.photo then [] else [it.photo.getD ""]
      vinted_item_id := toString it.id
      vinted_query_id := query_id }

/-- `VintedNormalizer.can_import_item` (the `allowlist` parameter is
accepted and ignored by the source, too).  Returns
`(should_import, reason)`; the loop over `banwords` stops at the first
word whose lowercase form occurs in the lowercase title. -/
def can_import_item (it : VintedItem) (allowlist : Option (List String))
    (banwords : List String) : Bool × Option String :=
  match banwords with
  | [] => (true, none)
  | w :: ws =>
    if pyIn (pyLower w) (pyLower it.title) then
      (false, some ("Title contains banword: " ++ w))
    else can_import_item it allowlist ws

end VintedNormalizer

/-- The adapter's ban-word list derivation (`adapter.py` lines 94–95):
`[w.strip().lower() for w in banwords_str.split('|||') if w.strip()]`. -/
def parseBanwords (s : String) : List String :=
  (splitTriplePipe s.data).filterMap fun w =>
    let t := pyStripChars w
    if t = [] then none else some ⟨t.map Char.toLower⟩


/-! ## Settings store as an association list (shared by both models) -/

/-- Look a key up in a settings table (key → value, keys unique). -/
def lookupSetting (settings : List (String × String)) (key : String) : Option String :=
  (settings.find? fun p => p.1 == key).map Prod.snd

/-- Supabase `upsert` on the settings table: replace the row with this key,
or append a new one. -/
def upsertSetting (settings : List (String × String)) (key value : String) :
    List (String × String) :=
  match settings with
  | [] => [(key, value)]
  | (k, v) :: rest =>
    if k == key then (key, value) :: rest
    else (k, v) :: upsertSetting rest key value

/-! ## Database layer, environment/exception model (`database.py`)

This model captures which operations raise and which swallow: values of
type `Except String α` are `.error` exactly when the Python function lets
an exception escape.  Every table operation in `database.py` wraps its
whole body — including the `get_supabase()` call — in
`try/except Exception`, so the configuration-missing exception raised by
`get_supabase` is caught there and converted to the sentinel. -/

namespace Database

/-- The two environment variables read by `get_supabase`; `none` means the
variable is unset. -/
structure Env where
  SUPABASE_URL : Option String
  SUPABASE_ANON_KEY : Option String
deriving Repr, DecidableEq

/-- `database.get_supabase`.  `cached` models the module-level
`_supabase_client` singleton (`some ()` once a client exists); when no
client is cached, `if not url or not key: raise Exception(...)` — note
Python truthiness makes the empty string count as absent. -/
def get_supabase (cached : Option Unit) (env : Env) : Except String Unit :=
  match cached with
  | some c => .ok c
  | none =>
    if falsyOptStr env.SUPABASE_URL || falsyOptStr env.SUPABASE_ANON_KEY then
      .error "SUPABASE_URL and SUPABASE_ANON_KEY environment variables required"
    else .ok ()

/-- `database.get_setting`: `try: get_supabase(); …lookup… except: return None`.
The `.ok none` in the error branch is the caught-and-swallowed path. -/
def get_setting (cached : Option Unit) (env : Env)
    (settings : List (String × String)) (key : String) :
    Except String (Option String) :=
  match get_supabase cached env with
  | .error _ => .ok none
  | .ok _ => .ok (lookupSetting settings key)

/-- `database.set_setting`: on any exception returns `False`; otherwise
upserts and returns `True`.  Result is `(flag, new settings)`. -/
def set_setting (cached : Option Unit) (env : Env)
    (settings : List (String × String)) (key value : String) :
    Except String (Bool × List (String × String)) :=
  match get_supabase cached env with
  | .error _ => .ok (false, settings)
  | .ok _ => .ok (true, upsertSetting settings key value)

/-- `database.get_items` (env-failure aspect only: filters/order elided to
the identity page of at most `limit` rows, which is all the claims need).
On any exception returns the `[]` sentinel. -/
def get_items (cached : Option Unit) (env : Env)
    (items : List VintedNormalizer.NormalizedItem) (limit : Nat) :
    Except String (List VintedNormalizer.NormalizedItem) :=
  match get_supabase cached env with
  | .error _ => .ok []
  | .ok _ => .ok (items.take limit)

/-- `database.create_item`: on any exception returns the `None` sentinel;
otherwise inserts and returns the created row.  Result pairs the returned
row with the new table contents. -/
def create_item (cached : Option Unit) (env : Env)
    (items : List VintedNormalizer.NormalizedItem)
    (item : VintedNormalizer.NormalizedItem) :
    Except String (Option VintedNormalizer.NormalizedItem ×
      List VintedNormalizer.NormalizedItem) :=
  match get_supabase cached env with
  | .error _ => .ok (none, items)
  | .ok _ => .ok (some item, items ++ [item])

end Database

/-! ## Adapter (`integrations/vinted/adapter.py`)

The remote store is a `DBState`; whether each store call succeeds is
driven by a `StoreOracle` (the Python functions catch internally and
return their sentinel on failure, so from the adapter's point of view
they are total).  Every store / network call made is recorded in an
`Effect` trace so that "performs no store call" is expressible. -/

/-- One row of `vinted_integration_logs` (the structured `data` payload is
carried opaquely in the message strings the claims mention). -/
structure LogEvent where
  event_type : String
  status : String
  message : String
deriving Repr, DecidableEq

/-- The remote store's visible state. -/
structure DBState where
  settings : List (String × String)
  items : List VintedNormalizer.NormalizedItem
  logs : List LogEvent
deriving Repr, DecidableEq

/-- Which store calls succeed during a run.  A `false` component makes the
corresponding `database.py` wrapper take its `except` branch and return
its sentinel (`None` / `False`); `createOk` may depend on the row's
`vinted_item_id`. -/
structure StoreOracle where
  getSettingOk : Bool
  lookupOk : Bool
  createOk : String → Bool
  setSettingOk : Bool
  logOk : Bool

/-- The fully reliable store: every call succeeds. -/
def honestOracle : StoreOracle :=
  { getSettingOk := true
    lookupOk := true
    createOk := fun _ => true
    setSettingOk := true
    logOk := true }

/-- Store / network calls the adapter can make, in program order. -/
inductive Effect where
  | fetch (query_url : String) (nbr_items : Nat)
  | getSettingCall (key : String)
  | setSettingCall (key value : String)
  | getItemByVintedIdCall (vinted_item_id : String)
  | createItemCall (vinted_item_id : String)
  | logEventCall (event_type status message : String)
deriving Repr, DecidableEq

/-- `db.get_setting` as seen by the adapter: `None` on store failure. -/
def dbGetSetting (o : StoreOracle) (s : DBState) (key : String) : Option String :=
  if o.getSettingOk then lookupSetting s.settings key else none

/-- `db.set_setting` as seen by the adapter: `False` and no change on
store failure. -/
def dbSetSetting (o : StoreOracle) (s : DBState) (key value : String) :
    Bool × DBState :=
  if o.setSettingOk then (true, { s with settings := upsertSetting s.settings key value })
  else (false, s)

/-- `db.get_item_by_vinted_id`: exact-match lookup on the
`vinted_item_id` column; `None` on store failure (indistinguishable from
"not found"). -/
def dbGetItemByVintedId (o : StoreOracle) (s : DBState) (vid : String) :
    Option VintedNormalizer.NormalizedItem :=
  if o.lookupOk then s.items.find? (fun it => it.vinted_item_id == vid) else none

/-- `db.create_item`: inserts and returns the row, or `None` and no
change on store failure. -/
def dbCreateItem (o : StoreOracle) (s : DBState)
    (item : VintedNormalizer.NormalizedItem) :
    Option VintedNormalizer.NormalizedItem × DBState :=
  if o.createOk item.vinted_item_id then
    (some item, { s with items := s.items ++ [item] })
  else (none, s)

/-- `db.log_vinted_event`: appends a log row, or does nothing on store
failure (the returned flag is ignored by every caller). -/
def dbLogEvent (o : StoreOracle) (s : DBState) (et st msg : String) :
    Bool × DBState :=
  if o.logOk then
    (true, { s with logs := s.logs ++ [⟨et, st, msg⟩] })
  else (false, s)

/-- Running counters and payload of the `result` dict built by
`sync_query`. -/
structure SyncResult where
  success : Bool
  imported : Nat
  skipped : Nat
  errors : Nat
  items : List VintedNormalizer.NormalizedItem
  message : Option String
deriving Repr, DecidableEq

/-- What one invocation of `sync_query` produces: the returned dict, the
store state afterwards, and the calls it made. -/
structure SyncOutput where
  result : SyncResult
  state : DBState
  trace : List Effect
deriving Repr, DecidableEq

namespace VintedAdapter

open VintedNormalizer

/-- The per-item loop body of `sync_query` (lines 97–143), applied to the
remaining items; mirrors the source's branch order: ban-word check,
duplicate check, normalize, create, log.  The inner `try/except` has no
reachable throw in the typed model but its error-counting branches are
kept where the source has them. -/
def processOneItem (o : StoreOracle) (banwords : List String) (query_id : Nat)
    (it : VintedItem) (s : DBState) (acc : SyncResult) :
    SyncResult × DBState × List Effect :=
  let vid := toString it.id
  if (can_import_item it none banwords).1 then
    let lookupEff := Effect.getItemByVintedIdCall vid
    match dbGetItemByVintedId o s vid with
    | some _ =>
      ({ acc with skipped := acc.skipped + 1 }, s, [lookupEff])
    | none =>
      match normalize_item it (some query_id) with
      | none =>
        ({ acc with errors := acc.errors + 1 }, s, [lookupEff])
      | some normalized =>
        let createOut := dbCreateItem o s normalized
        match createOut.1 with
        | some createdItem =>
          let s2 := (dbLogEvent o createOut.2 "item_imported" "Success"
            ("Imported item " ++ it.title)).2
          ({ acc with
              imported := acc.imported + 1
              items := acc.items ++ [createdItem] }, s2,
            [lookupEff, Effect.createItemCall vid,
             Effect.logEventCall "item_imported" "Success"
               ("Imported item " ++ it.title)])
        | none =>
          ({ acc with errors := acc.errors + 1 }, createOut.2,
            [lookupEff, Effect.createItemCall vid])
  else
    ({ acc with skipped := acc.skipped + 1 }, s, [])

/-- Folding `processOneItem` over the fetched page, accumulating the
effect trace in program order. -/
def processItems (o : StoreOracle) (banwords : List String) (query_id : Nat) :
    List VintedItem → DBState → SyncResult → SyncResult × DBState × List Effect
  | [], s, acc => (acc, s, [])
  | it :: rest, s, acc =>
    let step := processOneItem o banwords query_id it s acc
    let tail := processItems o banwords query_id rest step.2.1 step.1
    (tail.1, tail.2.1, step.2.2 ++ tail.2.2)

/-- The `result` dict as first built on line 86, before any item is
processed. -/
def initSyncResult : SyncResult :=
  { success := true, imported := 0, skipped := 0, errors := 0,
    items := [], message := none }

/-- The summary message of the final `query_sync` log (line 152). -/
def summaryMsg (query_id imported skipped errors : Nat) : String :=
  "Synced query " ++ toString query_id ++ ": " ++ toString imported ++
    " imported, " ++ toString skipped ++ " skipped, " ++ toString errors ++ " errors"

/-- `VintedAdapter.sync_query`.  `enabled` is the adapter's in-memory
flag; `fetchResult` is the outcome of the external
`vinted_client.items.search(query_url, nbr_items=items_limit)` call (the
pyVintedVN library is outside this repository); `now` is
`int(datetime.now().timestamp())`.  The only statement in the outer `try`
that can raise is the fetch, so the `except` branch is entered exactly
when `fetchResult` is an error. -/
def sync_query (o : StoreOracle) (enabled : Bool)
    (fetchResult : Except String (List VintedItem))
    (query_url : String) (query_id : Nat) (items_limit : Nat)
    (now : Nat) (s : DBState) : SyncOutput :=
  match enabled with
  | false =>
    -- line 82: `if not self.enabled: return {... 'message': 'Integration disabled'}`
    { result := { success := false, imported := 0, skipped := 0, errors := 0,
                  items := [], message := some "Integration disabled" }
      state := s
      trace := [] }
  | true =>
    match fetchResult with
    | .error e =>
      -- lines 156–167: result['success'] = False; result['message'] = str(e);
      -- db.log_vinted_event('query_sync', 'Error', ...)
      let msg := "Failed to sync query " ++ toString query_id ++ ": " ++ e
      let s1 := (dbLogEvent o s "query_sync" "Error" msg).2
      { result := { initSyncResult with success := false, message := some e }
        state := s1
        trace := [Effect.fetch query_url items_limit,
                  Effect.logEventCall "query_sync" "Error" msg] }
    | .ok vinted_items =>
      -- lines 94–95: banwords from settings
      let banwords_str := (dbGetSetting o s "banwords").getD ""
      let banwords := parseBanwords banwords_str
      let run := processItems o banwords query_id vinted_items s initSyncResult
      let acc := run.1
      -- line 146: unconditional last-sync stamp
      let s2 := (dbSetSetting o run.2.1 "vinted_last_sync" (toString now)).2
      -- lines 149–154: summary log
      let msg := summaryMsg query_id acc.imported acc.skipped acc.errors
      let s3 := (dbLogEvent o s2 "query_sync" "Success" msg).2
      { result := acc
        state := s3
        trace := [Effect.fetch query_url items_limit, Effect.getSettingCall "banwords"]
          ++ run.2.2
          ++ [Effect.setSettingCall "vinted_last_sync" (toString now),
              Effect.logEventCall "query_sync" "Success" msg] }

/-- `VintedAdapter.enable_integration` (lines 171–186).  `set_setting` and
`log_vinted_event` catch every exception internally, so the `except`
branch that would return `False` is unreachable; the returned triple is
(return value, new in-memory `enabled` flag, new store state). -/
def enable_integration (o : StoreOracle) (s : DBState) : Bool × Bool × DBState :=
  let s1 := (dbSetSetting o s "vinted_integration_enabled" "true").2
  let s2 := (dbLogEvent o s1 "integration_enabled" "Success" "Vinted integration enabled").2
  (true, true, s2)

/-- `VintedAdapter.disable_integration` (lines 188–203), same shape. -/
def disable_integration (o : StoreOracle) (s : DBState) : Bool × Bool × DBState :=
  let s1 := (dbSetSetting o s "vinted_integration_enabled" "false").2
  let s2 := (dbLogEvent o s1 "integration_disabled" "Success" "Vinted integration disabled").2
  (true, false, s2)

end VintedAdapter

/-! ## Definitions used to state the claims -/

/-- The claim's literal reading of the SKU brand code: the uppercase
*alphabetic* prefix of the brand, at most three characters, spaces
removed. -/
def claimAlphaCode (b : String) : String :=
  pyRemoveSpaces (pyUpper ⟨(b.data.takeWhile Char.isAlpha).take 3⟩)

/-- The amended SKU formula, from the spec's words: first three
characters of the brand, uppercased, spaces removed; a missing *or
empty* brand falls back to `"VINT-" ++ id`. -/
def sku_spec (i : String) (brand : Option String) : String :=
  match brand with
  | none => "VINT-" ++ i
  | some b =>
    if b = "" then "VINT-" ++ i
    else "VINT-" ++ pyRemoveSpaces (pyUpper (pyTake 3 b)) ++ "-" ++ i

/-- The amended ban-word derivation, from the spec's words: split the
setting value on the `"|||"` delimiter, trim and lowercase each segment,
drop segments that are empty after trimming. -/
def banwordSplitSpec (s : String) : List String :=
  ((splitTriplePipe s.data).map fun w => pyLower (pyStrip ⟨w⟩)).filter fun w => w ≠ ""

/-- Whether some ban-word occurs, case-insensitively, in the item's
title. -/
def bannedBy (bw : List String) (it : VintedItem) : Bool :=
  bw.any fun w => pyIn (pyLower w) (pyLower it.title)

/-- Whether an inventory table already holds a row with this
`vinted_item_id`. -/
def hasVid (items : List VintedNormalizer.NormalizedItem) (vid : String) : Bool :=
  (items.find? fun it => it.vinted_item_id == vid).isSome

/-- Trace predicate: a store call stamping the last-sync setting. -/
def isLastSyncStamp : Effect → Bool
  | .setSettingCall k _ => k == "vinted_last_sync"
  | _ => false

/-- Trace predicate: the summary `query_sync` success log call. -/
def isSummaryLog : Effect → Bool
  | .logEventCall et st _ => et == "query_sync" && st == "Success"
  | _ => false

/-- A store where every call fails (remote unreachable). -/
def offlineOracle : StoreOracle :=
  { getSettingOk := false, lookupOk := false, createOk := fun _ => false,
    setSettingOk := false, logOk := false }

/-- A sample external listing, used by concrete witnesses. -/
def sampleItem : VintedItem :=
  { id := 1, title := "Nike Shoes", price := 20, brandTitle := none,
    sizeTitle := none, createdAtIso := none,
    url := "https://vinted/1", photo := none }

/-- A sample inventory row, used by concrete witnesses. -/
def sampleRow : VintedNormalizer.NormalizedItem :=
  { sku := "VINT-1", item_name := "Nike Shoes", category := none,
    size := none, condition := "Good", brand := "Unknown",
    platforms := ["Vinted"], listing_status := "Draft",
    purchase_price := none, fees_estimate := 2,
    shipping_paid_by := "Buyer", shipping_cost := 0, sale_price := 20,
    date_purchased := none, date_listed := none, date_sold := none,
    location := none,
    notes := "Imported from Vinted. Original URL: https://vinted/1",
    photos := [], vinted_item_id := "1", vinted_query_id := some 1 }

/-! ## Helper lemmas -/

/-- A built string is empty exactly when its character list is. -/
lemma mk_eq_empty_iff (l : List Char) : (⟨l⟩ : String) = "" ↔ l = [] := by
  constructor
  · intro h
    have h2 := congrArg String.data h
    simpa using h2
  · intro h
    subst h
    rfl

/-- `can_import_item` is determined by the first ban-word occurring in
the lowercased title. -/
lemma can_import_item_eq (it : VintedItem) (al : Option (List String))
    (bw : List String) :
    VintedNormalizer.can_import_item it al bw =
      match bw.find? (fun w => pyIn (pyLower w) (pyLower it.title)) with
      | some w => (false, some ("Title contains banword: " ++ w))
      | none => (true, none) := by
  induction bw with
  | nil => simp [VintedNormalizer.can_import_item]
  | cons w ws ih =>
    rw [VintedNormalizer.can_import_item, List.find?]
    cases h : pyIn (pyLower w) (pyLower it.title) with
    | false => simpa [h] using ih
    | true => simp [h]

/-! ## Claim theorems -/

/-- C3, counterexample: the claim predicts the SKU uses the uppercase
*alphabetic* prefix of the brand and covers *every* brand string, but for
the brand `"4x4"` the code keeps the digit characters, and for the empty
brand the code drops the brand segment entirely (Python truthiness), so
both inputs refute the claimed equality. -/
theorem generate_sku_alpha_claim_false :
    VintedNormalizer.generate_sku "1" (some "4x4") = "VINT-4X4-1" ∧
    "VINT-" ++ claimAlphaCode "4x4" ++ "-" ++ "1" = "VINT--1" ∧
    VintedNormalizer.generate_sku "1" (some "4x4") ≠
      "VINT-" ++ claimAlphaCode "4x4" ++ "-" ++ "1" ∧
    VintedNormalizer.generate_sku "1" (some "") = "VINT-1" ∧
    VintedNormalizer.generate_sku "1" (some "") ≠
      "VINT-" ++ claimAlphaCode "" ++ "-" ++ "1" := by
  refine ⟨rfl, rfl, ?_, rfl, ?_⟩ <;> decide

/-- C3, amended: for every external id `i` and brand `b`, `generate_sku`
produces `"VINT-" ++ (first three characters of b, uppercased, spaces
removed) ++ "-" ++ i` when `b` is present and nonempty, and
`"VINT-" ++ i` when the brand is missing or empty. -/
theorem generate_sku_matches_amended_spec (i : String) (b : Option String) :
    VintedNormalizer.generate_sku i b = sku_spec i b := by
  match b with
  | none => rfl
  | some s =>
    by_cases h : s = ""
    · subst h; rfl
    · simp [VintedNormalizer.generate_sku, sku_spec, falsyOptStr, h]

/-- C4: `can_import_item` returns `false` together with a populated
reason naming the first ban-word (in list order) whose lowercase form
occurs in the lowercased title, and `(true, none)` when no ban-word
occurs — a single equation covering every item and ban-word list. -/
theorem can_import_item_banword_characterization (it : VintedItem)
    (al : Option (List String)) (bw : List String) :
    VintedNormalizer.can_import_item it al bw =
      match bw.find? (fun w => pyIn (pyLower w) (pyLower it.title)) with
      | some w => (false, some ("Title contains banword: " ++ w))
      | none => (true, none) :=
  can_import_item_eq it al bw

/-- C7: with the integration disabled, `sync_query` returns
success = false, zero counters, the disabled-reason message, leaves the
store untouched, and performs no network or store call (empty effect
trace). -/
theorem sync_query_disabled_noop (o : StoreOracle)
    (fr : Except String (List VintedItem)) (url : String)
    (qid lim now : Nat) (s : DBState) :
    VintedAdapter.sync_query o false fr url qid lim now s =
      { result := { success := false, imported := 0, skipped := 0,
                    errors := 0, items := [],
                    message := some "Integration disabled" }
        state := s
        trace := [] } := rfl

/-- C8, counterexample: the delimiter in the code is the triple pipe
`"|||"`, so the setting value `"a|b"` is one single ban-word `"a|b"`,
not the two ban-words `"a"` and `"b"` the claim predicts. -/
theorem parseBanwords_single_pipe_not_split :
    parseBanwords "a|b" = ["a|b"] ∧ parseBanwords "a|b" ≠ ["a", "b"] := by
  exact ⟨by decide, by decide⟩

/-- `filterMap` agrees with map-then-filter when the optional function is
the filtered map pointwise. -/
lemma filterMap_eq_filter_map {α β : Type} (f : α → Option β) (g : α → β)
    (p : β → Bool)
    (hsome : ∀ a, p (g a) = true → f a = some (g a))
    (hnone : ∀ a, p (g a) = false → f a = none) :
    ∀ L : List α, L.filterMap f = (L.map g).filter p := by
  intro L
  induction L with
  | nil => rfl
  | cons a L ih =>
    simp only [List.filterMap_cons, List.map_cons, List.filter_cons]
    cases hp : p (g a) with
    | true => rw [hsome a hp, ih]; simp
    | false => rw [hnone a hp, ih]; simp

/-- C8, amended: `sync_query` derives its ban-word list by splitting the
setting value on the triple-pipe delimiter `"|||"`, trimming and
lowercasing each segment and dropping empty segments — the adapter's
derivation coincides with the amended spec wording, and the forced
concrete readings hold: `"a|b"` is a single ban-word while `"a|||b"`
yields two. -/
theorem parseBanwords_triple_pipe_spec :
    (∀ s : String, parseBanwords s = banwordSplitSpec s) ∧
    parseBanwords "a|||b" = ["a", "b"] ∧
    parseBanwords "Fake||| NIKE X |||" = ["fake", "nike x"] := by
  refine ⟨fun s => ?_, by decide, by decide⟩
  unfold parseBanwords banwordSplitSpec
  refine filterMap_eq_filter_map _ _ _ ?_ ?_ (splitTriplePipe s.data)
  · intro a hp
    have hne : pyStripChars a ≠ [] := by
      intro hc
      rw [show pyLower (pyStrip ⟨a⟩) = (⟨(pyStripChars a).map Char.toLower⟩ : String) from rfl,
        hc] at hp
      simp at hp
    show (if pyStripChars a = [] then none
      else some (⟨(pyStripChars a).map Char.toLower⟩ : String)) = _
    rw [if_neg hne]
    rfl
  · intro a hp
    have hc : pyStripChars a = [] := by
      rw [show pyLower (pyStrip ⟨a⟩) = (⟨(pyStripChars a).map Char.toLower⟩ : String) from rfl]
        at hp
      simpa [mk_eq_empty_iff] using hp
    show (if pyStripChars a = [] then none
      else some (⟨(pyStripChars a).map Char.toLower⟩ : String)) = _
    rw [if_pos hc]

/-- C1, counterexample: with `SUPABASE_URL` unset (and no cached client),
`get_setting` does **not** raise — the configuration-missing exception
from `get_supabase` is caught by the operation's own
`try/except Exception` and converted to the `None` sentinel, and the
other store operations behave likewise. -/
theorem get_setting_missing_env_returns_sentinel :
    Database.get_setting none ⟨none, some "anon-key"⟩
        [("banwords", "fake")] "banwords" = .ok none ∧
    Database.set_setting none ⟨none, some "anon-key"⟩
        [("banwords", "fake")] "banwords" "x" = .ok (false, [("banwords", "fake")]) ∧
    Database.get_items none ⟨none, some "anon-key"⟩ [sampleRow] 50 = .ok [] ∧
    Database.create_item none ⟨none, some "anon-key"⟩ [] sampleRow = .ok (none, []) := by
  exact ⟨rfl, rfl, rfl, rfl⟩

/-- C1, amended: when either required environment value is absent (or
empty — Python truthiness) and no client is cached, `get_supabase`
itself raises the fatal configuration-missing error immediately; but
every store operation wraps that call in its own catch-all handler, so
the operation returns its empty/false/None sentinel instead of
propagating the error. -/
theorem store_ops_swallow_config_error (env : Database.Env)
    (settings : List (String × String))
    (items : List VintedNormalizer.NormalizedItem)
    (key value : String) (lim : Nat)
    (item : VintedNormalizer.NormalizedItem)
    (hmiss : falsyOptStr env.SUPABASE_URL = true ∨
             falsyOptStr env.SUPABASE_ANON_KEY = true) :
    Database.get_supabase none env =
      .error "SUPABASE_URL and SUPABASE_ANON_KEY environment variables required" ∧
    Database.get_setting none env settings key = .ok none ∧
    Database.set_setting none env settings key value = .ok (false, settings) ∧
    Database.get_items none env items lim = .ok [] ∧
    Database.create_item none env items item = .ok (none, items) := by
  have hsup : Database.get_supabase none env =
      .error "SUPABASE_URL and SUPABASE_ANON_KEY environment variables required" := by
    unfold Database.get_supabase
    rcases hmiss with h | h <;> simp [h]
  refine ⟨hsup, ?_, ?_, ?_, ?_⟩ <;>
    simp [Database.get_setting, Database.set_setting, Database.get_items,
      Database.create_item, hsup]

/-- Witness for C1's amended theorem at a concrete missing environment. -/
theorem store_ops_swallow_config_error_witness :
    Database.get_supabase none ⟨some "", some "anon-key"⟩ =
      .error "SUPABASE_URL and SUPABASE_ANON_KEY environment variables required" ∧
    Database.get_setting none ⟨some "", some "anon-key"⟩
      [("banwords", "fake")] "banwords" = .ok none := by
  have h := store_ops_swallow_config_error ⟨some "", some "anon-key"⟩
    [("banwords", "fake")] [] "banwords" "x" 50 sampleRow (Or.inl (by decide))
  exact ⟨h.1, h.2.1⟩

/-- C10: `enable_integration` and `disable_integration` always return
`True` and always flip the in-memory enabled flag, for every store
behaviour — in particular when persisting the setting fails
(`set_setting` catches the store error and returns `False`, which both
callers ignore), so a reported success does not imply the flag was
durably persisted: under a failing store the settings table is
unchanged. -/
theorem enable_disable_report_success_regardless (o : StoreOracle)
    (s s' : DBState) :
    (VintedAdapter.enable_integration o s).1 = true ∧
    (VintedAdapter.enable_integration o s).2.1 = true ∧
    (VintedAdapter.disable_integration o s').1 = true ∧
    (VintedAdapter.disable_integration o s').2.1 = false ∧
    (o.setSettingOk = false →
      (VintedAdapter.enable_integration o s).2.2.settings = s.settings ∧
      (VintedAdapter.disable_integration o s').2.2.settings = s'.settings) := by
  refine ⟨rfl, rfl, rfl, rfl, fun h => ?_⟩
  constructor <;>
    simp [VintedAdapter.enable_integration, VintedAdapter.disable_integration,
      dbSetSetting, dbLogEvent, h] <;>
    cases o.logOk <;> simp

/-- Witness for C10 at the fully failing store. -/
theorem enable_disable_report_success_regardless_witness :
    (VintedAdapter.enable_integration offlineOracle ⟨[], [], []⟩).1 = true ∧
    (VintedAdapter.enable_integration offlineOracle ⟨[], [], []⟩).2.1 = true ∧
    (VintedAdapter.enable_integration offlineOracle ⟨[], [], []⟩).2.2.settings = [] := by
  have h := enable_disable_report_success_regardless offlineOracle ⟨[], [], []⟩ ⟨[], [], []⟩
  exact ⟨h.1, h.2.1, (h.2.2.2.2 rfl).1⟩

/-- C6: a failing initial fetch aborts the whole sync: the result is
unsuccessful with the error text in its message, all counters are zero
and the item list empty, the only store call made is a single error log
event, and neither the settings table nor the inventory is touched. -/
theorem sync_query_fetch_error_aborts (o : StoreOracle) (e url : String)
    (qid lim now : Nat) (s : DBState) :
    (VintedAdapter.sync_query o true (.error e) url qid lim now s).result =
      { success := false, imported := 0, skipped := 0, errors := 0,
        items := [], message := some e } ∧
    (VintedAdapter.sync_query o true (.error e) url qid lim now s).trace =
      [Effect.fetch url lim,
       Effect.logEventCall "query_sync" "Error"
         ("Failed to sync query " ++ toString qid ++ ": " ++ e)] ∧
    (VintedAdapter.sync_query o true (.error e) url qid lim now s).state.settings =
      s.settings ∧
    (VintedAdapter.sync_query o true (.error e) url qid lim now s).state.items =
      s.items ∧
    (o.logOk = true →
      (VintedAdapter.sync_query o true (.error e) url qid lim now s).state.logs =
        s.logs ++ [⟨"query_sync", "Error",
          "Failed to sync query " ++ toString qid ++ ": " ++ e⟩]) := by
  refine ⟨rfl, rfl, ?_, ?_, fun h => ?_⟩
  · cases hl : o.logOk <;> simp [VintedAdapter.sync_query, dbLogEvent, hl]
  · cases hl : o.logOk <;> simp [VintedAdapter.sync_query, dbLogEvent, hl]
  · simp [VintedAdapter.sync_query, dbLogEvent, h]

/-- Witness for C6's log-append conjunct at the reliable store. -/
theorem sync_query_fetch_error_aborts_witness :
    (VintedAdapter.sync_query honestOracle true (.error "boom") "u" 1 20 100
        ⟨[], [], []⟩).result.success = false ∧
    (VintedAdapter.sync_query honestOracle true (.error "boom") "u" 1 20 100
        ⟨[], [], []⟩).state.logs =
      [⟨"query_sync", "Error", "Failed to sync query 1: boom"⟩] := by
  have h := sync_query_fetch_error_aborts honestOracle "boom" "u" 1 20 100 ⟨[], [], []⟩
  refine ⟨by rw [h.1], ?_⟩
  have h2 := h.2.2.2.2 rfl
  simpa using h2

/-- The effects of one loop step are only duplicate lookups, inserts and
`item_imported` logs — never a last-sync stamp or a `query_sync`
summary log. -/
lemma processOneItem_effects_benign (o : StoreOracle) (bw : List String)
    (qid : Nat) (it : VintedItem) (s : DBState) (acc : SyncResult) :
    ∀ e ∈ (VintedAdapter.processOneItem o bw qid it s acc).2.2,
      isLastSyncStamp e = false ∧ isSummaryLog e = false := by
  intro e he
  simp only [VintedAdapter.processOneItem] at he
  split at he
  · split at he
    · simp only [List.mem_singleton] at he
      subst he
      exact ⟨rfl, rfl⟩
    · split at he
      · simp only [List.mem_singleton] at he
        subst he
        exact ⟨rfl, rfl⟩
      · split at he
        · simp only [List.mem_cons, List.mem_singleton, List.not_mem_nil,
            or_false] at he
          rcases he with h | h | h <;> subst h <;> exact ⟨rfl, rfl⟩
        · simp only [List.mem_cons, List.mem_singleton, List.not_mem_nil,
            or_false] at he
          rcases he with h | h <;> subst h <;> exact ⟨rfl, rfl⟩
  · simp at he

/-- The whole loop emits neither a last-sync stamp nor a summary log. -/
lemma processItems_effects_benign (o : StoreOracle) (bw : List String)
    (qid : Nat) :
    ∀ (its : List VintedItem) (s : DBState) (acc : SyncResult),
      ∀ e ∈ (VintedAdapter.processItems o bw qid its s acc).2.2,
        isLastSyncStamp e = false ∧ isSummaryLog e = false := by
  intro its
  induction its with
  | nil =>
    intro s acc e he
    simp [VintedAdapter.processItems] at he
  | cons it rest ih =>
    intro s acc e he
    rw [VintedAdapter.processItems] at he
    simp only [List.mem_append] at he
    rcases he with h | h
    · exact processOneItem_effects_benign o bw qid it s acc e h
    · exact ih _ _ e h

/-- C5, counterexample: the claim extends the unconditional stamp-and-log
to the fetch-failure path, but in a concrete run whose initial fetch
fails, `sync_query` performs no last-sync stamp at all and no summary
log with counts (the settings table is left empty and the only log call
is the error event). -/
theorem sync_query_fetch_error_skips_stamp_and_summary :
    ((VintedAdapter.sync_query honestOracle true (.error "boom") "u" 1 20 100
        ⟨[], [], []⟩).trace.filter isLastSyncStamp) = [] ∧
    ((VintedAdapter.sync_query honestOracle true (.error "boom") "u" 1 20 100
        ⟨[], [], []⟩).trace.filter isSummaryLog) = [] ∧
    (VintedAdapter.sync_query honestOracle true (.error "boom") "u" 1 20 100
        ⟨[], [], []⟩).state.settings = [] := by
  exact ⟨rfl, rfl, rfl⟩

/-- C5, amended: whenever the integration is enabled and the initial
fetch succeeds, `sync_query` performs exactly one last-sync stamp (with
the current time) and exactly one `query_sync` summary log carrying the
final imported/skipped/errors counts, regardless of how the individual
items fared; on a failing fetch neither happens (see the
counterexample). -/
theorem sync_query_fetch_ok_stamps_and_logs_once (o : StoreOracle)
    (its : List VintedItem) (url : String) (qid lim now : Nat)
    (s : DBState) :
    ((VintedAdapter.sync_query o true (.ok its) url qid lim now s).trace.filter
        isLastSyncStamp) =
      [Effect.setSettingCall "vinted_last_sync" (toString now)] ∧
    ((VintedAdapter.sync_query o true (.ok its) url qid lim now s).trace.filter
        isSummaryLog) =
      [Effect.logEventCall "query_sync" "Success"
        (VintedAdapter.summaryMsg qid
          (VintedAdapter.sync_query o true (.ok its) url qid lim now s).result.imported
          (VintedAdapter.sync_query o true (.ok its) url qid lim now s).result.skipped
          (VintedAdapter.sync_query o true (.ok its) url qid lim now s).result.errors)] := by
  have hbenign := processItems_effects_benign o
    (parseBanwords ((dbGetSetting o s "banwords").getD "")) qid its s
    VintedAdapter.initSyncResult
  have h1 : List.filter isLastSyncStamp
      (VintedAdapter.processItems o
        (parseBanwords ((dbGetSetting o s "banwords").getD "")) qid its s
        VintedAdapter.initSyncResult).2.2 = [] :=
    List.filter_eq_nil_iff.mpr (fun e he => by simp [(hbenign e he).1])
  have h2 : List.filter isSummaryLog
      (VintedAdapter.processItems o
        (parseBanwords ((dbGetSetting o s "banwords").getD "")) qid its s
        VintedAdapter.initSyncResult).2.2 = [] :=
    List.filter_eq_nil_iff.mpr (fun e he => by simp [(hbenign e he).2])
  constructor
  · simp only [VintedAdapter.sync_query, List.filter_append, h1]
    rfl
  · simp only [VintedAdapter.sync_query, List.filter_append, h2]
    rfl

/-- Each loop step increments exactly one of the three counters, and the
result's item list grows exactly on imports. -/
lemma processOneItem_counts (o : StoreOracle) (bw : List String) (qid : Nat)
    (it : VintedItem) (s : DBState) (acc : SyncResult) :
    ((VintedAdapter.processOneItem o bw qid it s acc).1.imported +
        (VintedAdapter.processOneItem o bw qid it s acc).1.skipped +
        (VintedAdapter.processOneItem o bw qid it s acc).1.errors =
      acc.imported + acc.skipped + acc.errors + 1) ∧
    ((VintedAdapter.processOneItem o bw qid it s acc).1.items.length +
        acc.imported =
      acc.items.length +
        (VintedAdapter.processOneItem o bw qid it s acc).1.imported) := by
  unfold VintedAdapter.processOneItem
  by_cases hc : (VintedNormalizer.can_import_item it none bw).1 = true
  · simp only [hc, if_true]
    cases hL : dbGetItemByVintedId o s (toString it.id) with
    | some v => refine ⟨?_, ?_⟩ <;> simp [hL] <;> omega
    | none =>
      cases hN : VintedNormalizer.normalize_item it (some qid) with
      | none => refine ⟨?_, ?_⟩ <;> simp [hL, hN] <;> omega
      | some normalized =>
        cases hC : (dbCreateItem o s normalized).1 with
        | some c => refine ⟨?_, ?_⟩ <;> simp [hL, hN, hC] <;> omega
        | none => refine ⟨?_, ?_⟩ <;> simp [hL, hN, hC] <;> omega
  · simp only [hc, if_false]
    refine ⟨?_, ?_⟩ <;> simp <;> omega

/-- Over the whole loop the three counters absorb exactly one increment
per item, and the item list length tracks the imported counter. -/
lemma processItems_counts (o : StoreOracle) (bw : List String) (qid : Nat) :
    ∀ (its : List VintedItem) (s : DBState) (acc : SyncResult),
      ((VintedAdapter.processItems o bw qid its s acc).1.imported +
          (VintedAdapter.processItems o bw qid its s acc).1.skipped +
          (VintedAdapter.processItems o bw qid its s acc).1.errors =
        acc.imported + acc.skipped + acc.errors + its.length) ∧
      ((VintedAdapter.processItems o bw qid its s acc).1.items.length +
          acc.imported =
        acc.items.length +
          (VintedAdapter.processItems o bw qid its s acc).1.imported) := by
  intro its
  induction its with
  | nil =>
    intro s acc
    simp [VintedAdapter.processItems]
  | cons it rest ih =>
    intro s acc
    obtain ⟨h1, h2⟩ := processOneItem_counts o bw qid it s acc
    obtain ⟨h3, h4⟩ := ih (VintedAdapter.processOneItem o bw qid it s acc).2.1
      (VintedAdapter.processOneItem o bw qid it s acc).1
    rw [VintedAdapter.processItems]
    simp only [List.length_cons]
    exact ⟨by omega, by omega⟩

/-- C9: with the integration enabled and a successful fetch of `its`,
every fetched item increments exactly one of the three counters —
`imported + skipped + errors = its.length` — and the returned item list
has exactly `imported` entries. -/
theorem sync_query_counters_partition (o : StoreOracle)
    (its : List VintedItem) (url : String) (qid lim now : Nat)
    (s : DBState) :
    ((VintedAdapter.sync_query o true (.ok its) url qid lim now s).result.imported +
        (VintedAdapter.sync_query o true (.ok its) url qid lim now s).result.skipped +
        (VintedAdapter.sync_query o true (.ok its) url qid lim now s).result.errors =
      its.length) ∧
    ((VintedAdapter.sync_query o true (.ok its) url qid lim now s).result.items.length =
      (VintedAdapter.sync_query o true (.ok its) url qid lim now s).result.imported) := by
  obtain ⟨h1, h2⟩ := processItems_counts o
    (parseBanwords ((dbGetSetting o s "banwords").getD "")) qid its s
    VintedAdapter.initSyncResult
  simp only [show VintedAdapter.initSyncResult.imported = 0 from rfl,
    show VintedAdapter.initSyncResult.skipped = 0 from rfl,
    show VintedAdapter.initSyncResult.errors = 0 from rfl,
    show VintedAdapter.initSyncResult.items = [] from rfl,
    List.length_nil] at h1 h2
  simp only [VintedAdapter.sync_query]
  exact ⟨by omega, by omega⟩

/-- A successful `find?` stays successful after appending on the right. -/
lemma find?_append_isSome {α : Type} (p : α → Bool) (l t : List α)
    (h : (l.find? p).isSome = true) : ((l ++ t).find? p).isSome = true := by
  induction l with
  | nil => simp [List.find?] at h
  | cons a l ih =>
    cases hp : p a with
    | true => simp [List.find?, hp]
    | false =>
      simp only [List.find?, hp] at h
      simp only [List.cons_append, List.find?, hp]
      exact ih h

/-- When `find?` fails on the left part it continues on the right part. -/
lemma find?_append_right {α : Type} (p : α → Bool) (l t : List α)
    (h : l.find? p = none) : (l ++ t).find? p = t.find? p := by
  induction l with
  | nil => simp
  | cons a l ih =>
    cases hp : p a with
    | true => simp [List.find?, hp] at h
    | false =>
      simp only [List.find?, hp] at h
      simp only [List.cons_append, List.find?, hp]
      exact ih h

/-- Duplicate detection is stable under growth of the inventory. -/
lemma hasVid_append (items extra : List VintedNormalizer.NormalizedItem)
    (vid : String) (h : hasVid items vid = true) :
    hasVid (items ++ extra) vid = true :=
  find?_append_isSome _ items extra h

/-- The eligibility verdict is exactly the negated ban-word test. -/
lemma can_import_fst_eq_not_banned (it : VintedItem)
    (al : Option (List String)) (bw : List String) :
    (VintedNormalizer.can_import_item it al bw).1 = !bannedBy bw it := by
  rw [can_import_item_eq]
  cases hf : bw.find? (fun w => pyIn (pyLower w) (pyLower it.title)) with
  | none =>
    have hall := List.find?_eq_none.mp hf
    have : bannedBy bw it = false := by
      simp only [bannedBy, List.any_eq_false]
      intro x hx
      exact hall x hx
    rw [this]
    rfl
  | some w =>
    have hmem := List.mem_of_find?_eq_some hf
    have hp := List.find?_some hf
    have : bannedBy bw it = true := by
      simp only [bannedBy, List.any_eq_true]
      exact ⟨w, hmem, hp⟩
    rw [this]
    rfl

/-- Inserting an inventory row never touches the settings table. -/
lemma dbCreateItem_settings (o : StoreOracle) (s : DBState)
    (item : VintedNormalizer.NormalizedItem) :
    (dbCreateItem o s item).2.settings = s.settings := by
  unfold dbCreateItem
  split <;> rfl

/-- Logging never touches the settings table. -/
lemma dbLogEvent_settings (o : StoreOracle) (s : DBState) (a b c : String) :
    (dbLogEvent o s a b c).2.settings = s.settings := by
  unfold dbLogEvent
  split <;> rfl

/-- Logging never touches the inventory. -/
lemma dbLogEvent_items (o : StoreOracle) (s : DBState) (a b c : String) :
    (dbLogEvent o s a b c).2.items = s.items := by
  unfold dbLogEvent
  split <;> rfl

/-- Stamping a setting never touches the inventory. -/
lemma dbSetSetting_items (o : StoreOracle) (s : DBState) (k v : String) :
    (dbSetSetting o s k v).2.items = s.items := by
  unfold dbSetSetting
  split <;> rfl

/-- One loop step never touches the settings table. -/
lemma processOneItem_settings (o : StoreOracle) (bw : List String)
    (qid : Nat) (it : VintedItem) (s : DBState) (acc : SyncResult) :
    (VintedAdapter.processOneItem o bw qid it s acc).2.1.settings = s.settings := by
  unfold VintedAdapter.processOneItem
  by_cases hc : (VintedNormalizer.can_import_item it none bw).1 = true
  · simp only [hc, if_true]
    cases hL : dbGetItemByVintedId o s (toString it.id) with
    | some v => rfl
    | none =>
      cases hN : VintedNormalizer.normalize_item it (some qid) with
      | none => simp [hL, hN]
      | some normalized =>
        cases hC : (dbCreateItem o s normalized).1 with
        | some c =>
          simp [hL, hN, hC, dbLogEvent_settings, dbCreateItem_settings]
        | none =>
          simp [hL, hN, hC, dbCreateItem_settings]
  · simp only [hc, if_false]
    simp [Bool.not_eq_true] at hc
    simp [hc]

/-- The whole loop never touches the settings table. -/
lemma processItems_settings (o : StoreOracle) (bw : List String) (qid : Nat) :
    ∀ (its : List VintedItem) (s : DBState) (acc : SyncResult),
      (VintedAdapter.processItems o bw qid its s acc).2.1.settings = s.settings := by
  intro its
  induction its with
  | nil => intro s acc; rfl
  | cons it rest ih =>
    intro s acc
    rw [VintedAdapter.processItems]
    calc (VintedAdapter.processItems o bw qid rest
            (VintedAdapter.processOneItem o bw qid it s acc).2.1
            (VintedAdapter.processOneItem o bw qid it s acc).1).2.1.settings
        = (VintedAdapter.processOneItem o bw qid it s acc).2.1.settings :=
          ih _ _
      _ = s.settings := processOneItem_settings o bw qid it s acc

/-- One loop step only ever appends to the inventory. -/
lemma processOneItem_items_grow (o : StoreOracle) (bw : List String)
    (qid : Nat) (it : VintedItem) (s : DBState) (acc : SyncResult) :
    ∃ t, (VintedAdapter.processOneItem o bw qid it s acc).2.1.items =
      s.items ++ t := by
  unfold VintedAdapter.processOneItem
  by_cases hc : (VintedNormalizer.can_import_item it none bw).1 = true
  · simp only [hc, if_true]
    cases hL : dbGetItemByVintedId o s (toString it.id) with
    | some v => exact ⟨[], by simp⟩
    | none =>
      cases hN : VintedNormalizer.normalize_item it (some qid) with
      | none => exact ⟨[], by simp [hL, hN]⟩
      | some normalized =>
        cases hOk : o.createOk normalized.vinted_item_id with
        | true =>
          refine ⟨[normalized], ?_⟩
          simp [hL, hN, dbCreateItem, hOk, dbLogEvent_items]
        | false =>
          refine ⟨[], ?_⟩
          simp [hL, hN, dbCreateItem, hOk]
  · simp only [hc, if_false]
    simp [Bool.not_eq_true] at hc
    exact ⟨[], by simp [hc]⟩

/-- The whole loop only ever appends to the inventory. -/
lemma processItems_items_grow (o : StoreOracle) (bw : List String) (qid : Nat) :
    ∀ (its : List VintedItem) (s : DBState) (acc : SyncResult),
      ∃ t, (VintedAdapter.processItems o bw qid its s acc).2.1.items =
        s.items ++ t := by
  intro its
  induction its with
  | nil => intro s acc; exact ⟨[], by simp [VintedAdapter.processItems]⟩
  | cons it rest ih =>
    intro s acc
    obtain ⟨t1, h1⟩ := processOneItem_items_grow o bw qid it s acc
    obtain ⟨t2, h2⟩ := ih (VintedAdapter.processOneItem o bw qid it s acc).2.1
      (VintedAdapter.processOneItem o bw qid it s acc).1
    refine ⟨t1 ++ t2, ?_⟩
    rw [VintedAdapter.processItems]
    calc (VintedAdapter.processItems o bw qid rest
            (VintedAdapter.processOneItem o bw qid it s acc).2.1
            (VintedAdapter.processOneItem o bw qid it s acc).1).2.1.items
        = (VintedAdapter.processOneItem o bw qid it s acc).2.1.items ++ t2 := h2
      _ = s.items ++ (t1 ++ t2) := by rw [h1, List.append_assoc]

/-- With the reliable store, processing a non-banned item leaves a row
with its external id in the inventory (it was either already there or has
just been inserted). -/
lemma processOneItem_establishes (bw : List String) (qid : Nat)
    (it : VintedItem) (s : DBState) (acc : SyncResult)
    (hban : bannedBy bw it = false) :
    hasVid (VintedAdapter.processOneItem honestOracle bw qid it s acc).2.1.items
      (toString it.id) = true := by
  have hcan : (VintedNormalizer.can_import_item it none bw).1 = true := by
    rw [can_import_fst_eq_not_banned, hban]
    rfl
  unfold VintedAdapter.processOneItem
  simp only [hcan, if_true]
  cases hL : dbGetItemByVintedId honestOracle s (toString it.id) with
  | some v =>
    simp only [hL]
    simp only [dbGetItemByVintedId, honestOracle, if_true] at hL
    simp [hasVid, hL]
  | none =>
    have hfind : s.items.find?
        (fun row => row.vinted_item_id == toString it.id) = none := by
      simpa [dbGetItemByVintedId, honestOracle] using hL
    cases hN : VintedNormalizer.normalize_item it (some qid) with
    | none => simp [VintedNormalizer.normalize_item] at hN
    | some normalized =>
      have hvid : normalized.vinted_item_id = toString it.id := by
        simp only [VintedNormalizer.normalize_item, Option.some.injEq] at hN
        rw [← hN]
      simp only [hL, hN]
      cases hC : (dbCreateItem honestOracle s normalized).1 with
      | none => simp [dbCreateItem, honestOracle] at hC
      | some c =>
        simp only [hC]
        simp only [dbLogEvent_items]
        have hitems : (dbCreateItem honestOracle s normalized).2.items =
            s.items ++ [normalized] := by
          simp [dbCreateItem, honestOracle]
        simp only [hitems, hasVid]
        rw [find?_append_right _ _ _ hfind]
        simp [List.find?, hvid]

/-- With the reliable store, after the loop every non-banned fetched item
has a row with its external id in the inventory. -/
lemma processItems_covers (bw : List String) (qid : Nat) :
    ∀ (its : List VintedItem) (s : DBState) (acc : SyncResult)
      (it : VintedItem), it ∈ its → bannedBy bw it = false →
      hasVid (VintedAdapter.processItems honestOracle bw qid its s acc).2.1.items
        (toString it.id) = true := by
  intro its
  induction its with
  | nil =>
    intro s acc it hmem
    simp at hmem
  | cons hd rest ih =>
    intro s acc it hmem hban
    rw [VintedAdapter.processItems]
    show hasVid (VintedAdapter.processItems honestOracle bw qid rest
      (VintedAdapter.processOneItem honestOracle bw qid hd s acc).2.1
      (VintedAdapter.processOneItem honestOracle bw qid hd s acc).1).2.1.items
      (toString it.id) = true
    rcases List.mem_cons.mp hmem with heq | hmem'
    · subst heq
      have hstep := processOneItem_establishes bw qid it s acc hban
      obtain ⟨t2, h2⟩ := processItems_items_grow honestOracle bw qid rest
        (VintedAdapter.processOneItem honestOracle bw qid it s acc).2.1
        (VintedAdapter.processOneItem honestOracle bw qid it s acc).1
      rw [h2]
      exact hasVid_append _ _ _ hstep
    · exact ih _ _ it hmem' hban

/-- With the reliable store, an item that is banned or already present is
counted as skipped and the store is left unchanged. -/
lemma processOneItem_skips_when_present (bw : List String) (qid : Nat)
    (it : VintedItem) (s : DBState) (acc : SyncResult)
    (h : bannedBy bw it = true ∨ hasVid s.items (toString it.id) = true) :
    (VintedAdapter.processOneItem honestOracle bw qid it s acc).1 =
      { acc with skipped := acc.skipped + 1 } ∧
    (VintedAdapter.processOneItem honestOracle bw qid it s acc).2.1 = s := by
  unfold VintedAdapter.processOneItem
  cases hb : bannedBy bw it with
  | true =>
    have hcan : (VintedNormalizer.can_import_item it none bw).1 = false := by
      rw [can_import_fst_eq_not_banned, hb]
      rfl
    simp [hcan]
  | false =>
    have hcan : (VintedNormalizer.can_import_item it none bw).1 = true := by
      rw [can_import_fst_eq_not_banned, hb]
      rfl
    have hv : hasVid s.items (toString it.id) = true := by
      rcases h with h | h
      · rw [hb] at h
        cases h
      · exact h
    simp only [hasVid] at hv
    obtain ⟨v, hfind⟩ := Option.isSome_iff_exists.mp hv
    have hlook : dbGetItemByVintedId honestOracle s (toString it.id) = some v := by
      simp [dbGetItemByVintedId, honestOracle, hfind]
    simp [hcan, hlook]

/-- With the reliable store, a batch in which every item is banned or
already present imports nothing: every item is skipped and the store is
unchanged. -/
lemma processItems_all_present_skips (bw : List String) (qid : Nat) :
    ∀ (its : List VintedItem) (s : DBState) (acc : SyncResult),
      (∀ it ∈ its, bannedBy bw it = true ∨
        hasVid s.items (toString it.id) = true) →
      ((VintedAdapter.processItems honestOracle bw qid its s acc).1 =
        { acc with skipped := acc.skipped + its.length } ∧
       (VintedAdapter.processItems honestOracle bw qid its s acc).2.1 = s) := by
  intro its
  induction its with
  | nil =>
    intro s acc hall
    refine ⟨?_, rfl⟩
    show acc = _
    simp
  | cons hd rest ih =>
    intro s acc hall
    obtain ⟨h1, h2⟩ := processOneItem_skips_when_present bw qid hd s acc
      (hall hd (List.mem_cons_self hd rest))
    rw [VintedAdapter.processItems]
    have hrest := ih s { acc with skipped := acc.skipped + 1 }
      (fun it hit => hall it (List.mem_cons_of_mem hd hit))
    rw [h1, h2] at *
    refine ⟨?_, hrest.2⟩
    rw [hrest.1]
    simp only [List.length_cons]
    congr 1
    omega

/-- With the reliable store no loop step can fail, so the error counter
never moves. -/
lemma processOneItem_honest_no_errors (bw : List String) (qid : Nat)
    (it : VintedItem) (s : DBState) (acc : SyncResult) :
    (VintedAdapter.processOneItem honestOracle bw qid it s acc).1.errors =
      acc.errors := by
  unfold VintedAdapter.processOneItem
  by_cases hc : (VintedNormalizer.can_import_item it none bw).1 = true
  · simp only [hc, if_true]
    cases hL : dbGetItemByVintedId honestOracle s (toString it.id) with
    | some v => rfl
    | none =>
      cases hN : VintedNormalizer.normalize_item it (some qid) with
      | none => simp [VintedNormalizer.normalize_item] at hN
      | some normalized =>
        cases hC : (dbCreateItem honestOracle s normalized).1 with
        | none => simp [dbCreateItem, honestOracle] at hC
        | some c => simp [hL, hN, hC]
  · simp only [hc, if_false]
    simp [Bool.not_eq_true] at hc
    simp [hc]

/-- With the reliable store the loop produces no errors at all. -/
lemma processItems_honest_no_errors (bw : List String) (qid : Nat) :
    ∀ (its : List VintedItem) (s : DBState) (acc : SyncResult),
      (VintedAdapter.processItems honestOracle bw qid its s acc).1.errors =
        acc.errors := by
  intro its
  induction its with
  | nil => intro s acc; rfl
  | cons it rest ih =>
    intro s acc
    rw [VintedAdapter.processItems]
    calc (VintedAdapter.processItems honestOracle bw qid rest
            (VintedAdapter.processOneItem honestOracle bw qid it s acc).2.1
            (VintedAdapter.processOneItem honestOracle bw qid it s acc).1).1.errors
        = (VintedAdapter.processOneItem honestOracle bw qid it s acc).1.errors :=
          ih _ _
      _ = acc.errors := processOneItem_honest_no_errors bw qid it s acc

/-- Upserting one settings key leaves every other key's lookup alone. -/
lemma lookupSetting_upsert_ne (k v key : String) (h : key ≠ k) :
    ∀ st, lookupSetting (upsertSetting st k v) key = lookupSetting st key := by
  intro st
  induction st with
  | nil =>
    have h1 : (k == key) = false := by
      simp only [beq_eq_false_iff_ne, ne_eq]
      exact fun hkk => h hkk.symm
    simp [upsertSetting, lookupSetting, List.find?, h1]
  | cons p rest ih =>
    by_cases hp : p.1 = k
    · have hbeq : (p.1 == k) = true := by simp [hp]
      simp only [upsertSetting, hbeq, if_true]
      simp only [lookupSetting, List.find?]
      have h1 : (k == key) = false := by
        simp [beq_eq_false_iff_ne]
        exact fun hkk => h hkk.symm
      have h2 : (p.1 == key) = false := by
        rw [hp]
        exact h1
      rw [h1, h2]
    · have hbeq : (p.1 == k) = false := by simp [beq_eq_false_iff_ne, hp]
      simp only [upsertSetting, hbeq, if_false]
      simp only [lookupSetting, List.find?]
      cases hq : p.1 == key with
      | true => rfl
      | false =>
        simpa [lookupSetting] using ih


/-- C2: with a reliable store, running `sync_query` twice on the same
query with an unchanged fetched result set imports nothing the second
time: every item either fails the ban-word check again or is rejected by
the exact-match existence lookup on its external id, so the second run
has `imported = 0`, `errors = 0`, and skips exactly the
`skipped + imported` items of the first run. -/
theorem sync_query_second_run_imports_nothing (its : List VintedItem)
    (url : String) (qid lim now1 now2 : Nat) (s0 : DBState) :
    (VintedAdapter.sync_query honestOracle true (.ok its) url qid lim now2
        (VintedAdapter.sync_query honestOracle true (.ok its) url qid lim now1
          s0).state).result.imported = 0 ∧
    (VintedAdapter.sync_query honestOracle true (.ok its) url qid lim now2
        (VintedAdapter.sync_query honestOracle true (.ok its) url qid lim now1
          s0).state).result.errors = 0 ∧
    (VintedAdapter.sync_query honestOracle true (.ok its) url qid lim now2
        (VintedAdapter.sync_query honestOracle true (.ok its) url qid lim now1
          s0).state).result.skipped =
      (VintedAdapter.sync_query honestOracle true (.ok its) url qid lim now1
        s0).result.skipped +
      (VintedAdapter.sync_query honestOracle true (.ok its) url qid lim now1
        s0).result.imported := by
  simp only [VintedAdapter.sync_query]
  set bw1 := parseBanwords ((dbGetSetting honestOracle s0 "banwords").getD "")
    with hbw1
  set R1 := VintedAdapter.processItems honestOracle bw1 qid its s0
    VintedAdapter.initSyncResult with hR1
  set S1 := (dbLogEvent honestOracle
    (dbSetSetting honestOracle R1.2.1 "vinted_last_sync" (toString now1)).2
    "query_sync" "Success"
    (VintedAdapter.summaryMsg qid R1.1.imported R1.1.skipped R1.1.errors)).2
    with hS1
  set bw2 := parseBanwords ((dbGetSetting honestOracle S1 "banwords").getD "")
    with hbw2
  have hbw21 : bw2 = bw1 := by
    rw [hbw2, hbw1]
    have hsettings : S1.settings =
        upsertSetting R1.2.1.settings "vinted_last_sync" (toString now1) := by
      rw [hS1, dbLogEvent_settings]
      simp [dbSetSetting, honestOracle]
    have hlook : dbGetSetting honestOracle S1 "banwords" =
        dbGetSetting honestOracle s0 "banwords" := by
      simp only [dbGetSetting, honestOracle, if_true]
      rw [hsettings, lookupSetting_upsert_ne _ _ _ (by decide)]
      rw [hR1, processItems_settings]
    rw [hlook]
  have hitems : S1.items = R1.2.1.items := by
    rw [hS1, dbLogEvent_items, dbSetSetting_items]
  have hcover : ∀ it ∈ its, bannedBy bw1 it = true ∨
      hasVid S1.items (toString it.id) = true := by
    intro it hit
    cases hb : bannedBy bw1 it with
    | true => exact Or.inl rfl
    | false =>
      refine Or.inr ?_
      rw [hitems, hR1]
      exact processItems_covers bw1 qid its s0 VintedAdapter.initSyncResult
        it hit hb
  have hskip := processItems_all_present_skips bw1 qid its S1
    VintedAdapter.initSyncResult hcover
  have hcounts := (processItems_counts honestOracle bw1 qid its s0
    VintedAdapter.initSyncResult).1
  have herr := processItems_honest_no_errors bw1 qid its s0
    VintedAdapter.initSyncResult
  rw [← hR1] at hcounts herr
  rw [hbw21]
  refine ⟨?_, ?_, ?_⟩
  · rw [hskip.1]
    rfl
  · rw [hskip.1]
    rfl
  · rw [hskip.1]
    simp only [show VintedAdapter.initSyncResult.imported = 0 from rfl,
      show VintedAdapter.initSyncResult.skipped = 0 from rfl,
      show VintedAdapter.initSyncResult.errors = 0 from rfl] at hcounts herr ⊢
    omega
